import Mathlib

/-!
Verification of the arithmetic drilling game (question-queue lifecycle and
scoring state machine).

The development shallowly embeds the program logic:

* `genQuestion` embeds one iteration of the loop body of
  `generateQuestionBatch` (src/services/gameService.ts).  The calls to
  `Math.random()` are made explicit inputs, gathered in a `QuestionDraw`
  record: `opIdx` is the index drawn for the ALL ("mix") mode, `r1` and `r2`
  are the two `Math.floor(Math.random() * 10)` draws (so the sampled operands
  are `r1 + 1` and `r2 + 1`), and `swapDisplay` is the outcome of the
  `Math.random() > 0.5` display swap.
* The React component state of `App` (src/unnamed/part_001) is embedded as
  `AppState`; the handlers `startGame`, `handleInput`, `handleDelete`,
  `processAnswer`, `nextQuestion`, `finishGame` and the review-set
  derivations (`startReview` and the results-screen `wrongQuestionsMap`)
  are embedded as functions on it.  `Date.now()` is an explicit `now : Nat`
  argument wherever the source calls it.
* The `setTimeout(() => nextQuestion(), ...)` calls in `processAnswer` are
  embedded as a pending-callback field.  In the source, the scheduled
  closure captures `nextQuestion` from the render in which the memoized
  `processAnswer` was created (`useCallback` with dependency list
  `[questionQueue, currentQIndex]`), so when the callback later runs, its
  test `currentQIndex >= questionQueue.length - 1` reads the queue length
  and the index as they were at submission time - before the retry append -
  while `setCurrentQIndex(prev => prev + 1)` updates the live value.  The
  field `pendingDelayed : Option (Nat x Nat)` therefore records the
  captured `(currentQIndex, questionQueue.length)` pair, and `fireDelayed`
  runs the captured callback.  No `clearTimeout` appears anywhere in the
  source, so nothing ever clears this field except the callback itself
  running.
-/

/-- Embeds `OperationType` (src/types.ts). -/
inductive OperationType where
  | ADDITION
  | SUBTRACTION
  | MULTIPLICATION
  | DIVISION
  | ALL
deriving DecidableEq

/-- Embeds `GameState` (src/types.ts). -/
inductive GameState where
  | MENU
  | PLAYING
  | RESULTS
deriving DecidableEq

/-- Embeds the `feedback` union type of the React state
(src/unnamed/part_001, line 22); the React state is an `Option Feedback`. -/
inductive Feedback where
  | correct
  | wrong
  | timeout
deriving DecidableEq

/-- Embeds `Question` (src/types.ts).  JavaScript numbers are modelled as
`Int` (all arithmetic in the program is on small integers); the optional
`userAnswer` becomes `Option Int`. -/
structure Question where
  id : String
  num1 : Int
  num2 : Int
  operation : OperationType
  correctAnswer : Int
  userAnswer : Option Int
  isRetry : Bool
deriving DecidableEq

/-- Embeds `SessionStats` (src/types.ts).  Timestamps are `Nat`
milliseconds; the stored `averageTimePerQuestion` field is initialised to 0
by `startGame` and never written again in the source (the results screen
recomputes the average from the other fields), so it is carried along
unchanged. -/
structure SessionStats where
  totalQuestions : Nat
  correctCount : Nat
  wrongCount : Nat
  startTime : Nat
  endTime : Nat
  averageTimePerQuestion : ℚ
deriving DecidableEq

/-- Embeds the React component state of `App` (src/unnamed/part_001,
lines 11-30), restricted to the fields the session engine reads or writes.
`pendingDelayed` embeds the at-most-one pending `setTimeout` callback
scheduled by `processAnswer`: it stores the `(currentQIndex,
questionQueue.length)` pair captured by the scheduled closure, as explained
in the file header. -/
structure AppState where
  gameState : GameState
  questionQueue : List Question
  currentQIndex : Nat
  userInput : String
  feedback : Option Feedback
  sessionStats : SessionStats
  pendingDelayed : Option (Nat × Nat)
deriving DecidableEq

/-! ### Question generator (src/services/gameService.ts) -/

/-- The `operations` array of `generateQuestionBatch`
(src/services/gameService.ts, lines 9-14). -/
def operationsList : List OperationType :=
  [OperationType.ADDITION, OperationType.SUBTRACTION,
   OperationType.MULTIPLICATION, OperationType.DIVISION]

/-- The outcomes of the `Math.random()` calls made for one question of
`generateQuestionBatch`, passed explicitly. -/
structure QuestionDraw where
  opIdx : Fin 4
  r1 : Fin 10
  r2 : Fin 10
  swapDisplay : Bool
deriving DecidableEq

/-- Operation resolution (src/services/gameService.ts, lines 17-20): in ALL
("mix") mode one of the four arithmetic operations is drawn. -/
def resolveOp (operation : OperationType) (opIdx : Fin 4) : OperationType :=
  if operation = OperationType.ALL then
    operationsList.get ⟨opIdx.val, opIdx.isLt⟩
  else operation

/-- The second operand (src/services/gameService.ts, lines 30-38): the
target-table number when one is set, otherwise the second random draw. -/
def sampledN2 (targetNumber : Option Int) (r2 : Fin 10) : Int :=
  match targetNumber with
  | some t => t
  | none => (r2.val : Int) + 1

/-- The per-operation `switch` (src/services/gameService.ts, lines 40-60),
returning `(n1, n2, ans)` after the switch has run.  For SUBTRACTION the
operands are swapped first when `n1 < n2`; for DIVISION the answer is the
sampled `n1` and the displayed dividend is `n1 * n2`.  The `ALL` branch
mirrors the fall-through of the `switch` (no case matches and `ans` keeps
its initialisation `0`). -/
def rawTriple (op : OperationType) (n1 n2 : Int) : Int × Int × Int :=
  match op with
  | OperationType.ADDITION => (n1, n2, n1 + n2)
  | OperationType.SUBTRACTION =>
      if n1 < n2 then (n2, n1, n2 - n1) else (n1, n2, n1 - n2)
  | OperationType.MULTIPLICATION => (n1, n2, n1 * n2)
  | OperationType.DIVISION => (n1 * n2, n2, n1)
  | OperationType.ALL => (n1, n2, 0)

/-- The display-order randomisation (src/services/gameService.ts,
lines 62-65): for `+` and `×` the operands are swapped half the time. -/
def displayPair (op : OperationType) (swapDisplay : Bool) (p : Int × Int) :
    Int × Int :=
  if (op = OperationType.ADDITION ∨ op = OperationType.MULTIPLICATION)
      ∧ swapDisplay = true then
    (p.2, p.1)
  else p

/-- Embeds one iteration of the loop body of `generateQuestionBatch`
(src/services/gameService.ts, lines 16-75).  `now` is the `Date.now()`
used for the id and `i` the loop index. -/
def genQuestion (operation : OperationType) (targetNumber : Option Int)
    (d : QuestionDraw) (now i : Nat) : Question :=
  let op := resolveOp operation d.opIdx
  let n1 : Int := (d.r1.val : Int) + 1
  let n2 : Int := sampledN2 targetNumber d.r2
  let t := rawTriple op n1 n2
  let disp := displayPair op d.swapDisplay (t.1, t.2.1)
  { id := "q-" ++ toString now ++ "-" ++ toString i
    num1 := disp.1
    num2 := disp.2
    operation := op
    correctAnswer := t.2.2
    userAnswer := none
    isRetry := false }

/-! ### Gameplay state machine (src/unnamed/part_001) -/

/-- Embeds `startGame` (src/unnamed/part_001, lines 37-55) applied to an
explicit question list (the generated batch, or the custom review queue):
the queue, index, input buffer and feedback are reset, the stats are
re-created with `totalQuestions` fixed to the batch size and `startTime`
set to the current time, and the game state becomes PLAYING. -/
def startGame (questions : List Question) (now : Nat) : AppState :=
  { gameState := GameState.PLAYING
    questionQueue := questions
    currentQIndex := 0
    userInput := ""
    feedback := none
    sessionStats :=
      { totalQuestions := questions.length
        correctCount := 0
        wrongCount := 0
        startTime := now
        endTime := 0
        averageTimePerQuestion := 0 }
    pendingDelayed := none }

/-- The correctness test of `processAnswer` (src/unnamed/part_001,
lines 100-101): `valToCheck` is the submitted value or the `-999` dummy for
a timeout, and the submission is correct when it is not a timeout and
`valToCheck` equals the correct answer. -/
def submissionCorrect (userVal : Option Int) (isTimeout : Bool)
    (q : Question) : Bool :=
  !isTimeout && (userVal.getD (-999) = q.correctAnswer)

/-- The retry clone built by the wrong branch of `processAnswer`
(src/unnamed/part_001, lines 117-123): same arithmetic content, answer
cleared, `isRetry` set, and an id derived from the original id plus a
`-retry-` suffix with the current time. -/
def retryClone (q : Question) (now : Nat) : Question :=
  { q with
      userAnswer := none
      isRetry := true
      id := q.id ++ "-retry-" ++ toString now }

/-- Embeds `processAnswer` (src/unnamed/part_001, lines 95-134).  When no
current question exists the call is a no-op.  On a correct submission the
correct count is incremented; on a wrong submission or timeout the wrong
count is incremented and a retry clone is appended to the queue.  In both
branches feedback is shown and a `setTimeout(() => nextQuestion(), ...)`
is scheduled; the scheduled closure captures the pre-append
`(currentQIndex, questionQueue.length)` pair as explained in the file
header, recorded here in `pendingDelayed`. -/
def processAnswer (userVal : Option Int) (isTimeout : Bool) (now : Nat)
    (s : AppState) : AppState :=
  match s.questionQueue.get? s.currentQIndex with
  | none => s
  | some currentQ =>
    if submissionCorrect userVal isTimeout currentQ then
      { s with
          feedback := some Feedback.correct
          sessionStats :=
            { s.sessionStats with
                correctCount := s.sessionStats.correctCount + 1 }
          pendingDelayed :=
            some (s.currentQIndex, s.questionQueue.length) }
    else
      { s with
          feedback :=
            some (if isTimeout then Feedback.timeout else Feedback.wrong)
          sessionStats :=
            { s.sessionStats with
                wrongCount := s.sessionStats.wrongCount + 1 }
          questionQueue := s.questionQueue ++ [retryClone currentQ now]
          pendingDelayed :=
            some (s.currentQIndex, s.questionQueue.length) }

/-- Embeds `finishGame` (src/unnamed/part_001, lines 147-151): sets the
end time and moves to the RESULTS state. -/
def finishGame (now : Nat) (s : AppState) : AppState :=
  { s with
      sessionStats := { s.sessionStats with endTime := now }
      gameState := GameState.RESULTS }

/-- Embeds the `nextQuestion` closure run by the delayed callback
(src/unnamed/part_001, lines 136-145).  `capturedIdx` and `capturedLen`
are the `currentQIndex` and `questionQueue.length` values the closure
captured when the callback was scheduled (see the file header); the
completion test compares those captured values, while the index increment
`setCurrentQIndex(prev => prev + 1)` acts on the live state. -/
def nextQuestion (capturedIdx capturedLen : Nat) (now : Nat)
    (s : AppState) : AppState :=
  let s1 := { s with feedback := none, userInput := "" }
  if capturedIdx ≥ capturedLen - 1 then finishGame now s1
  else { s1 with currentQIndex := s1.currentQIndex + 1 }

/-- Runs the pending delayed callback, if any.  The source never calls
`clearTimeout`, so the callback always eventually runs; firing it is an
explicit event here. -/
def fireDelayed (now : Nat) (s : AppState) : AppState :=
  match s.pendingDelayed with
  | none => s
  | some (capturedIdx, capturedLen) =>
      nextQuestion capturedIdx capturedLen now
        { s with pendingDelayed := none }

/-- Embeds the exit-to-menu button of the play screen
(src/unnamed/part_001, lines 360-365): its click handler is exactly
`setGameState(GameState.MENU)`; nothing else is reset and no pending
callback is cancelled. -/
def exitToMenu (s : AppState) : AppState :=
  { s with gameState := GameState.MENU }

/-- The string sent by a keypad digit button: the decimal digit itself. -/
def digitStr (d : Fin 10) : String := toString d.val

/-- `parseInt` restricted to the all-digit strings the keypad can build. -/
def parseIntDigits (str : String) : Int :=
  Int.ofNat (str.data.foldl (fun a c => a * 10 + (c.toNat - 48)) 0)

/-- The in-place update `updatedQueue[currentQIndex].userAnswer = userVal`
of `handleInput` (src/unnamed/part_001, lines 82-84); out-of-range indices
leave the queue unchanged. -/
def setUserAnswerAt (qs : List Question) (i : Nat) (v : Int) :
    List Question :=
  match qs.get? i with
  | some q => qs.set i { q with userAnswer := some v }
  | none => qs

/-- Embeds `handleInput` (src/unnamed/part_001, lines 63-88): input is
ignored while feedback is shown or when no current question exists; a
digit is appended unless the buffer already has as many digits as the
correct answer; when the extended buffer reaches exactly that length it is
parsed, stored as the user answer of the current question and submitted
via `processAnswer` (auto-submit). -/
def handleInput (d : Fin 10) (now : Nat) (s : AppState) : AppState :=
  if s.feedback.isSome then s
  else
    match s.questionQueue.get? s.currentQIndex with
    | none => s
    | some currentQ =>
      let correctStr := toString currentQ.correctAnswer
      if s.userInput.length ≥ correctStr.length then s
      else
        let nextInput := s.userInput ++ digitStr d
        if nextInput.length = correctStr.length then
          let userVal := parseIntDigits nextInput
          processAnswer (some userVal) false now
            { s with
                userInput := nextInput
                questionQueue :=
                  setUserAnswerAt s.questionQueue s.currentQIndex userVal }
        else { s with userInput := nextInput }

/-- Embeds `handleDelete` (src/unnamed/part_001, lines 90-93): a no-op
while feedback is shown, otherwise `prev.slice(0, -1)`. -/
def handleDelete (s : AppState) : AppState :=
  if s.feedback.isSome then s
  else { s with userInput := String.mk s.userInput.data.dropLast }

/-- The countdown expiry path: the `CircularTimer` (src/unnamed/part_000)
is mounted only on the play screen with `isPlaying = !feedback`, and when
its time reaches zero while playing it calls `onTimeUp`, which is
`() => processAnswer(null, true)` (src/unnamed/part_001, line 377).  The
mount and `isPlaying` conditions are the guard here. -/
def timerFired (now : Nat) (s : AppState) : AppState :=
  if s.gameState = GameState.PLAYING ∧ s.feedback = none then
    processAnswer none true now s
  else s

/-! ### Review-set derivation (src/unnamed/part_001, lines 153-172 and
459-467) -/

/-- `id.split('-retry')[0]`: the prefix of the id before the first
occurrence of the substring `-retry`. -/
def cutRetry : List Char → List Char
  | [] => []
  | c :: rest =>
      if List.isPrefixOf ("-retry".data) (c :: rest) then []
      else c :: cutRetry rest

/-- The stable identifier used for de-duplication: the id with any retry
suffix stripped. -/
def stripRetry (id : String) : String := String.mk (cutRetry id.data)

/-- JavaScript `Map` membership (`map.has(k)`), on the insertion-ordered
association list that embeds the map. -/
def mapHas (m : List (String × Question)) (k : String) : Bool :=
  (m.lookup k).isSome

/-- JavaScript `Map.set`: replaces in place when the key exists, otherwise
appends in insertion order. -/
def mapSet (m : List (String × Question)) (k : String) (v : Question) :
    List (String × Question) :=
  if (m.lookup k).isSome then
    m.map (fun p => if p.1 = k then (k, v) else p)
  else m ++ [(k, v)]

/-- One step of the `questionQueue.forEach` loop that builds
`wrongQuestionsMap` (src/unnamed/part_001, lines 155-166 and 460-466):
a question is considered when its `userAnswer` is set and differs from
`correctAnswer`; the map is probed with the stripped id but the insertion
key is the full `q.id`.  `f` is the stored value: the identity for the
results-screen map, a review transform for `startReview`. -/
def wrongMapStep (f : Question → Question) (m : List (String × Question))
    (q : Question) : List (String × Question) :=
  if q.userAnswer ≠ none ∧ q.userAnswer ≠ some q.correctAnswer then
    if mapHas m (stripRetry q.id) then m
    else mapSet m q.id (f q)
  else m

/-- The unique-wrong-question list of the results screen
(src/unnamed/part_001, lines 459-467): map values in insertion order. -/
def resultsWrongQuestions (queue : List Question) : List Question :=
  (queue.foldl (wrongMapStep id) []).map Prod.snd

/-- The value stored by `startReview` for each wrong question
(src/unnamed/part_001, lines 158-163). -/
def reviewTransform (q : Question) : Question :=
  { q with
      id := "review-" ++ q.id
      userAnswer := none
      isRetry := false }

/-- The review batch built by `startReview` (src/unnamed/part_001,
lines 153-167). -/
def startReviewQuestions (queue : List Question) : List Question :=
  (queue.foldl (wrongMapStep reviewTransform) []).map Prod.snd

/-! ### Session driver -/

/-- One submission event of a play session: either the auto-submit of a
fully typed value (which stores the value as the current question
`userAnswer` and calls `processAnswer(value, false)`, mirroring
`handleInput`), or a countdown expiry (`processAnswer(null, true)`).
`now` is the clock value when the event fires. -/
inductive Submission where
  | answer (v : Int) (now : Nat)
  | timeout (now : Nat)
deriving DecidableEq

/-- Applies one submission to the state. -/
def applySubmission : Submission → AppState → AppState
  | Submission.answer v now, s =>
      processAnswer (some v) false now
        { s with
            questionQueue :=
              setUserAnswerAt s.questionQueue s.currentQIndex v }
  | Submission.timeout now, s => processAnswer none true now s

/-- The clock value of a submission. -/
def submissionNow : Submission → Nat
  | Submission.answer _ n => n
  | Submission.timeout n => n

/-- One full question interaction of a session: the submission is
processed and the feedback delay then elapses, running the scheduled
`nextQuestion` callback.  Submissions only happen on the play screen
(keypad and timer are only mounted there), hence the PLAYING guard. -/
def stepSession (s : AppState) (sub : Submission) : AppState :=
  if s.gameState = GameState.PLAYING then
    fireDelayed (submissionNow sub) (applySubmission sub s)
  else s

/-- A play session: the submissions processed in order. -/
def runSession (subs : List Submission) (s : AppState) : AppState :=
  subs.foldl stepSession s

/-- The states reachable by the user interface events: a session start
(with a generated or review batch), keypad presses and deletes, countdown
expiry, the delayed `nextQuestion` callback firing, and the exit-to-menu
button. -/
inductive Reachable : AppState → Prop where
  | start (qs : List Question) (now : Nat) : Reachable (startGame qs now)
  | press (d : Fin 10) (now : Nat) {s : AppState} :
      Reachable s → Reachable (handleInput d now s)
  | delete {s : AppState} : Reachable s → Reachable (handleDelete s)
  | timer (now : Nat) {s : AppState} :
      Reachable s → Reachable (timerFired now s)
  | delayed (now : Nat) {s : AppState} :
      Reachable s → Reachable (fireDelayed now s)
  | exit {s : AppState} : Reachable s → Reachable (exitToMenu s)

/-- The two-question session used to exercise the review de-duplication:
question A (2 x 3) and question B (2 x 4). -/
def qA : Question :=
  Question.mk "A" 2 3 OperationType.MULTIPLICATION 6 none false

/-- Second question of the de-duplication session. -/
def qB : Question :=
  Question.mk "B" 2 4 OperationType.MULTIPLICATION 8 none false

/-- The submissions of the de-duplication session: both originals time out
with nothing typed (answers stay unset), both first retries get wrong
typed answers, the second retry of A gets another wrong typed answer, and
the remaining retries are answered correctly, completing the session. -/
def dedupFailSubs : List Submission :=
  [Submission.timeout 1, Submission.timeout 2, Submission.answer 5 3,
   Submission.answer 5 4, Submission.answer 4 5, Submission.answer 8 6,
   Submission.answer 6 7]

/-- The final state of the de-duplication session. -/
def dedupFailFinal : AppState :=
  runSession dedupFailSubs (startGame [qA, qB] 0)

/-- The average-time computation of the results screen
(src/unnamed/part_001, lines 455-456): elapsed milliseconds divided by
`totalQuestions`, then by 1000 to give seconds. -/
def resultsAvgTimeSec (st : SessionStats) : ℚ :=
  (((st.endTime : ℚ) - (st.startTime : ℚ)) / (st.totalQuestions : ℚ)) / 1000

/-- The input-buffer invariant of the play screen: the buffer never holds
more digits than the correct answer of the current question has. -/
def InputInv (s : AppState) : Prop :=
  s.gameState = GameState.PLAYING →
    ∀ q, s.questionQueue.get? s.currentQIndex = some q →
      s.userInput.length ≤ (toString q.correctAnswer).length

/-! ### Theorems -/

/-- The operation field of a generated question is the resolved operation. -/
theorem genQuestion_operation (operation : OperationType)
    (targetNumber : Option Int) (d : QuestionDraw) (now i : Nat) :
    (genQuestion operation targetNumber d now i).operation =
      resolveOp operation d.opIdx := rfl

/-- The resolved operation is never ALL. -/
theorem resolveOp_ne_ALL (operation : OperationType) (opIdx : Fin 4) :
    resolveOp operation opIdx ≠ OperationType.ALL := by
  unfold resolveOp
  by_cases h : operation = OperationType.ALL
  · simp only [h, if_pos rfl]
    fin_cases opIdx <;> decide
  · rw [if_neg h]; exact h

/-- Under the menu precondition the second operand is at least 1. -/
theorem sampledN2_pos (targetNumber : Option Int) (r2 : Fin 10)
    (htgt : targetNumber = none ∨
      ∃ t, targetNumber = some t ∧ 1 ≤ t ∧ t ≤ 10) :
    1 ≤ sampledN2 targetNumber r2 := by
  rcases htgt with h | ⟨t, ht, h1, _⟩
  · subst h
    have : (0 : Int) ≤ (r2.val : Int) := Int.ofNat_nonneg _
    simp only [sampledN2]
    omega
  · subst ht
    simpa [sampledN2] using h1

/-- C5: for every generated division question, under the menu precondition
that `targetNumber` is null or one of the table numbers 1..10, the divisor
`num2` is nonzero, the displayed dividend `num1` equals
`correctAnswer * num2`, and hence `num1 / num2` is exact and equals
`correctAnswer`: a division question with a non-integer answer is never
generated. -/
theorem division_questions_are_exact (operation : OperationType)
    (targetNumber : Option Int) (d : QuestionDraw) (now i : Nat)
    (htgt : targetNumber = none ∨
      ∃ t, targetNumber = some t ∧ 1 ≤ t ∧ t ≤ 10)
    (hop : (genQuestion operation targetNumber d now i).operation =
      OperationType.DIVISION) :
    (genQuestion operation targetNumber d now i).num2 ≠ 0 ∧
    (genQuestion operation targetNumber d now i).num1 =
      (genQuestion operation targetNumber d now i).correctAnswer *
        (genQuestion operation targetNumber d now i).num2 ∧
    (genQuestion operation targetNumber d now i).num1 /
        (genQuestion operation targetNumber d now i).num2 =
      (genQuestion operation targetNumber d now i).correctAnswer := by
  have hres : resolveOp operation d.opIdx = OperationType.DIVISION := hop
  have hn2 : 1 ≤ sampledN2 targetNumber d.r2 := sampledN2_pos _ _ htgt
  have hn2' : sampledN2 targetNumber d.r2 ≠ 0 := by omega
  simp only [genQuestion, hres, rawTriple, displayPair]
  simp only [reduceCtorEq, or_self, false_and, if_false]
  refine ⟨hn2', by trivial, ?_⟩
  exact Int.mul_ediv_cancel _ hn2'

/-- Witness for C5 at a concrete draw: direct division mode, no target
table, sampled operands 3 and 5, so the displayed question is 15 divided by
5 with answer 3. -/
theorem division_questions_are_exact_witness :
    ((none : Option Int) = none ∨
      ∃ t, (none : Option Int) = some t ∧ 1 ≤ t ∧ t ≤ 10) ∧
    (genQuestion OperationType.DIVISION none
      ⟨0, 2, 4, false⟩ 0 0).operation = OperationType.DIVISION ∧
    (genQuestion OperationType.DIVISION none ⟨0, 2, 4, false⟩ 0 0).num2 ≠ 0 :=
  ⟨Or.inl rfl, by decide,
    (division_questions_are_exact OperationType.DIVISION none
      ⟨0, 2, 4, false⟩ 0 0 (Or.inl rfl) (by decide)).1⟩

/-- C6: every question generated under the menu precondition (target table
null or in 1..10) has a non-negative integer `correctAnswer`, whatever the
operation; in particular for subtraction the larger operand is placed
first, so `num2 ≤ num1` and `correctAnswer = num1 - num2 ≥ 0`. -/
theorem correctAnswer_nonneg (operation : OperationType)
    (targetNumber : Option Int) (d : QuestionDraw) (now i : Nat)
    (htgt : targetNumber = none ∨
      ∃ t, targetNumber = some t ∧ 1 ≤ t ∧ t ≤ 10) :
    0 ≤ (genQuestion operation targetNumber d now i).correctAnswer ∧
    ((genQuestion operation targetNumber d now i).operation =
        OperationType.SUBTRACTION →
      (genQuestion operation targetNumber d now i).num2 ≤
          (genQuestion operation targetNumber d now i).num1 ∧
        (genQuestion operation targetNumber d now i).correctAnswer =
          (genQuestion operation targetNumber d now i).num1 -
            (genQuestion operation targetNumber d now i).num2) := by
  have hn1 : 1 ≤ ((d.r1.val : Int) + 1) := by
    have : (0 : Int) ≤ (d.r1.val : Int) := Int.ofNat_nonneg _
    omega
  have hn2 : 1 ≤ sampledN2 targetNumber d.r2 := sampledN2_pos _ _ htgt
  rcases hres : resolveOp operation d.opIdx with _ | _ | _ | _ | _
  · -- ADDITION
    refine ⟨?_, ?_⟩
    · show (0 : Int) ≤ (rawTriple (resolveOp operation d.opIdx) _ _).2.2
      rw [hres]; simp only [rawTriple]; omega
    · intro hsub
      rw [genQuestion_operation, hres] at hsub
      exact absurd hsub (by decide)
  · -- SUBTRACTION
    constructor
    · show (0 : Int) ≤ (rawTriple (resolveOp operation d.opIdx) _ _).2.2
      rw [hres]; simp only [rawTriple]
      split <;> dsimp only <;> omega
    · intro _
      have hid : displayPair (resolveOp operation d.opIdx) d.swapDisplay
          ((rawTriple (resolveOp operation d.opIdx) ((d.r1.val : Int) + 1)
              (sampledN2 targetNumber d.r2)).1,
           (rawTriple (resolveOp operation d.opIdx) ((d.r1.val : Int) + 1)
              (sampledN2 targetNumber d.r2)).2.1) =
          ((rawTriple (resolveOp operation d.opIdx) ((d.r1.val : Int) + 1)
              (sampledN2 targetNumber d.r2)).1,
           (rawTriple (resolveOp operation d.opIdx) ((d.r1.val : Int) + 1)
              (sampledN2 targetNumber d.r2)).2.1) := by
        rw [hres]; simp [displayPair]
      constructor
      · show (displayPair _ _ _).2 ≤ (displayPair _ _ _).1
        rw [hid]
        rw [hres]; simp only [rawTriple]
        split <;> dsimp only <;> omega
      · show (rawTriple _ _ _).2.2 = (displayPair _ _ _).1 - (displayPair _ _ _).2
        rw [hid]
        rw [hres]; simp only [rawTriple]
        split <;> dsimp only
  · -- MULTIPLICATION
    refine ⟨?_, ?_⟩
    · show (0 : Int) ≤ (rawTriple (resolveOp operation d.opIdx) _ _).2.2
      rw [hres]; simp only [rawTriple]
      exact mul_nonneg (by omega) (by omega)
    · intro hsub
      rw [genQuestion_operation, hres] at hsub
      exact absurd hsub (by decide)
  · -- DIVISION
    refine ⟨?_, ?_⟩
    · show (0 : Int) ≤ (rawTriple (resolveOp operation d.opIdx) _ _).2.2
      rw [hres]; simp only [rawTriple]; omega
    · intro hsub
      rw [genQuestion_operation, hres] at hsub
      exact absurd hsub (by decide)
  · -- ALL: impossible for a resolved operation
    exact absurd hres (resolveOp_ne_ALL _ _)

/-- Witness for C6: a subtraction drawn in ALL mode with the target table 7
and sampled first operand 3 places the larger operand first and yields a
non-negative answer. -/
theorem correctAnswer_nonneg_witness :
    ((some 7 : Option Int) = none ∨
      ∃ t, (some 7 : Option Int) = some t ∧ 1 ≤ t ∧ t ≤ 10) ∧
    0 ≤ (genQuestion OperationType.ALL (some 7) ⟨1, 2, 0, false⟩ 0 0).correctAnswer ∧
    (genQuestion OperationType.ALL (some 7) ⟨1, 2, 0, false⟩ 0 0).num2 ≤
      (genQuestion OperationType.ALL (some 7) ⟨1, 2, 0, false⟩ 0 0).num1 := by
  have h := correctAnswer_nonneg OperationType.ALL (some 7) ⟨1, 2, 0, false⟩ 0 0
    (Or.inr ⟨7, rfl, by decide, by decide⟩)
  exact ⟨Or.inr ⟨7, rfl, by decide, by decide⟩, h.1, (h.2 (by decide)).1⟩


/-! ### Basic lemmas about the embedded operations -/

/-- `processAnswer` with no current question is a no-op. -/
theorem processAnswer_no_current (userVal : Option Int) (isTimeout : Bool)
    (now : Nat) (s : AppState)
    (h : s.questionQueue.get? s.currentQIndex = none) :
    processAnswer userVal isTimeout now s = s := by
  unfold processAnswer
  rw [h]

/-- `processAnswer` on a correct submission. -/
theorem processAnswer_correct (userVal : Option Int) (isTimeout : Bool)
    (now : Nat) (s : AppState) (q : Question)
    (hq : s.questionQueue.get? s.currentQIndex = some q)
    (hc : submissionCorrect userVal isTimeout q = true) :
    processAnswer userVal isTimeout now s =
      { s with
          feedback := some Feedback.correct
          sessionStats :=
            { s.sessionStats with
                correctCount := s.sessionStats.correctCount + 1 }
          pendingDelayed :=
            some (s.currentQIndex, s.questionQueue.length) } := by
  unfold processAnswer
  rw [hq]
  simp only [hc, if_true]

/-- `processAnswer` on a wrong submission or timeout. -/
theorem processAnswer_wrong (userVal : Option Int) (isTimeout : Bool)
    (now : Nat) (s : AppState) (q : Question)
    (hq : s.questionQueue.get? s.currentQIndex = some q)
    (hc : submissionCorrect userVal isTimeout q = false) :
    processAnswer userVal isTimeout now s =
      { s with
          feedback :=
            some (if isTimeout then Feedback.timeout else Feedback.wrong)
          sessionStats :=
            { s.sessionStats with
                wrongCount := s.sessionStats.wrongCount + 1 }
          questionQueue := s.questionQueue ++ [retryClone q now]
          pendingDelayed :=
            some (s.currentQIndex, s.questionQueue.length) } := by
  unfold processAnswer
  rw [hq]
  simp only [hc, Bool.false_eq_true, if_false]

/-- `setUserAnswerAt` keeps the queue length. -/
theorem setUserAnswerAt_length (qs : List Question) (i : Nat) (v : Int) :
    (setUserAnswerAt qs i v).length = qs.length := by
  unfold setUserAnswerAt
  cases h : qs.get? i
  · rfl
  · exact List.length_set qs i _

/-- `setUserAnswerAt` rewrites the addressed entry, keeping every other
field. -/
theorem setUserAnswerAt_get_self (qs : List Question) (i : Nat) (v : Int)
    (q : Question) (hq : qs.get? i = some q) :
    (setUserAnswerAt qs i v).get? i = some { q with userAnswer := some v } := by
  unfold setUserAnswerAt
  rw [hq]
  have hi : i < qs.length := by
    rcases List.get?_eq_some.mp hq with ⟨h, _⟩
    exact h
  exact List.get?_set_eq_of_lt _ hi

/-- `setUserAnswerAt` leaves every other position unchanged. -/
theorem setUserAnswerAt_get_other (qs : List Question) (i j : Nat) (v : Int)
    (hne : j ≠ i) :
    (setUserAnswerAt qs i v).get? j = qs.get? j := by
  unfold setUserAnswerAt
  cases hq : qs.get? i
  · rfl
  · exact List.get?_set_ne _ _ (fun h => hne h.symm)

/-- Every entry of `mapSet m k v` is an entry of `m` or the pair `(k, v)`. -/
theorem mem_mapSet (m : List (String × Question)) (k : String) (v : Question)
    (p : String × Question) (hp : p ∈ mapSet m k v) :
    p ∈ m ∨ p = (k, v) := by
  unfold mapSet at hp
  split at hp
  · rcases List.mem_map.mp hp with ⟨p0, hp0, hpe⟩
    by_cases h : p0.1 = k
    · right
      rw [if_pos h] at hpe
      exact hpe.symm
    · left
      rw [if_neg h] at hpe
      exact hpe ▸ hp0
  · rcases List.mem_append.mp hp with h | h
    · exact Or.inl h
    · right
      simpa using h

/-- Every value stored in the wrong-question map comes from a queue entry
whose `userAnswer` is set and differs from `correctAnswer` (the filter of
the `forEach` loop), transformed by `f`. -/
theorem wrongMap_values_from_wrong (f : Question → Question)
    (queue : List Question) (m0 : List (String × Question))
    (h0 : ∀ p ∈ m0, ∃ q0, (q0.userAnswer ≠ none ∧
      q0.userAnswer ≠ some q0.correctAnswer) ∧ p.2 = f q0) :
    ∀ p ∈ queue.foldl (wrongMapStep f) m0, ∃ q0, (q0.userAnswer ≠ none ∧
      q0.userAnswer ≠ some q0.correctAnswer) ∧ p.2 = f q0 := by
  induction queue generalizing m0 with
  | nil => exact h0
  | cons q rest ih =>
    intro p hp
    refine ih (wrongMapStep f m0 q) ?_ p hp
    intro p1 hp1
    unfold wrongMapStep at hp1
    split at hp1
    · split at hp1
      · exact h0 p1 hp1
      · rcases mem_mapSet _ _ _ _ hp1 with h | h
        · exact h0 p1 h
        · refine ⟨q, ?_, ?_⟩
          · assumption
          · rw [h]
    · exact h0 p1 hp1

/-- Every question in the results-screen wrong list has a set answer that
differs from the correct one. -/
theorem resultsWrongQuestions_userAnswer_set (queue : List Question)
    (r : Question) (hr : r ∈ resultsWrongQuestions queue) :
    r.userAnswer ≠ none ∧ r.userAnswer ≠ some r.correctAnswer := by
  unfold resultsWrongQuestions at hr
  rcases List.mem_map.mp hr with ⟨p, hp, hpe⟩
  rcases wrongMap_values_from_wrong id queue [] (by simp) p hp
    with ⟨q0, hq0, hpq⟩
  rw [← hpe, hpq]
  exact hq0

/-- The retry id is the original id with a nonempty suffix, so it is a
fresh (different) id. -/
theorem retryClone_id_ne (q : Question) (now : Nat) :
    (retryClone q now).id ≠ q.id := by
  intro h
  have hid : (retryClone q now).id = q.id ++ "-retry-" ++ toString now := rfl
  rw [hid] at h
  have hlen := congrArg String.length h
  have h7 : ("-retry-" : String).length = 7 := rfl
  simp only [String.length_append, h7] at hlen
  omega

/-- C2: every wrong submission, and identically every timeout whatever
partial input is in the buffer (`processAnswer` never reads `userInput`,
so the state `s` here is arbitrary in it), increments `wrongCount` by
exactly 1 and appends exactly one retry clone of the current question at
the end of the queue, with a fresh id (original id plus a retry suffix),
`isRetry = true`, `userAnswer` unset and the same arithmetic content; and
correctness of a submission is exactly (not a timeout) AND (submitted
integer equals `correctAnswer`), timeouts never being correct. -/
theorem wrong_submission_appends_retry (s : AppState) (q : Question)
    (userVal : Option Int) (isTimeout : Bool) (now : Nat)
    (hq : s.questionQueue.get? s.currentQIndex = some q)
    (hw : submissionCorrect userVal isTimeout q = false) :
    (processAnswer userVal isTimeout now s).sessionStats.wrongCount =
        s.sessionStats.wrongCount + 1 ∧
    (processAnswer userVal isTimeout now s).sessionStats.correctCount =
        s.sessionStats.correctCount ∧
    (processAnswer userVal isTimeout now s).questionQueue =
        s.questionQueue ++ [retryClone q now] ∧
    (processAnswer userVal isTimeout now s).questionQueue.length =
        s.questionQueue.length + 1 ∧
    (retryClone q now).isRetry = true ∧
    (retryClone q now).userAnswer = none ∧
    (retryClone q now).id = q.id ++ "-retry-" ++ toString now ∧
    (retryClone q now).id ≠ q.id ∧
    (retryClone q now).num1 = q.num1 ∧
    (retryClone q now).num2 = q.num2 ∧
    (retryClone q now).operation = q.operation ∧
    (retryClone q now).correctAnswer = q.correctAnswer ∧
    (∀ v b, submissionCorrect (some v) b q = true ↔
      (b = false ∧ v = q.correctAnswer)) ∧
    (∀ u, submissionCorrect u true q = false) := by
  rw [processAnswer_wrong userVal isTimeout now s q hq hw]
  refine ⟨rfl, rfl, rfl, by simp, rfl, rfl, rfl, retryClone_id_ne q now,
    rfl, rfl, rfl, rfl, ?_, ?_⟩
  · intro v b
    cases b <;> simp [submissionCorrect]
  · intro u
    simp [submissionCorrect]

/-- Witness for C2: a concrete state holding the single question 2 x 3
with a submitted answer 5. -/
theorem wrong_submission_appends_retry_witness :
    (AppState.mk GameState.PLAYING
        [Question.mk "q-1-0" 2 3 OperationType.MULTIPLICATION 6 none false]
        0 "" none (SessionStats.mk 1 0 0 0 0 0) none).questionQueue.get?
      (AppState.mk GameState.PLAYING
        [Question.mk "q-1-0" 2 3 OperationType.MULTIPLICATION 6 none false]
        0 "" none (SessionStats.mk 1 0 0 0 0 0) none).currentQIndex =
      some (Question.mk "q-1-0" 2 3 OperationType.MULTIPLICATION 6 none false) ∧
    submissionCorrect (some 5) false
      (Question.mk "q-1-0" 2 3 OperationType.MULTIPLICATION 6 none false) =
      false ∧
    (processAnswer (some 5) false 9
      (AppState.mk GameState.PLAYING
        [Question.mk "q-1-0" 2 3 OperationType.MULTIPLICATION 6 none false]
        0 "" none (SessionStats.mk 1 0 0 0 0 0) none)).sessionStats.wrongCount =
      0 + 1 :=
  ⟨rfl, by decide,
    (wrong_submission_appends_retry
      (AppState.mk GameState.PLAYING
        [Question.mk "q-1-0" 2 3 OperationType.MULTIPLICATION 6 none false]
        0 "" none (SessionStats.mk 1 0 0 0 0 0) none)
      (Question.mk "q-1-0" 2 3 OperationType.MULTIPLICATION 6 none false)
      (some 5) false 9 rfl (by decide)).1⟩

/-- C7: submitting the correct answer for the current question increments
`correctCount` by exactly 1 and leaves the queue length and every entry
other than the current question untouched; the current question only gets
its `userAnswer` recorded.  (`applySubmission (answer v)` is the
auto-submit path of `handleInput`: store the parsed value, then call
`processAnswer(value, false)`.) -/
theorem correct_submission_frame (s : AppState) (q : Question) (v : Int)
    (now : Nat)
    (hq : s.questionQueue.get? s.currentQIndex = some q)
    (hv : v = q.correctAnswer) :
    (applySubmission (Submission.answer v now) s).sessionStats.correctCount =
        s.sessionStats.correctCount + 1 ∧
    (applySubmission (Submission.answer v now) s).sessionStats.wrongCount =
        s.sessionStats.wrongCount ∧
    (applySubmission (Submission.answer v now) s).questionQueue.length =
        s.questionQueue.length ∧
    (applySubmission (Submission.answer v now) s).questionQueue.get?
        s.currentQIndex = some { q with userAnswer := some v } ∧
    (∀ j, j ≠ s.currentQIndex →
      (applySubmission (Submission.answer v now) s).questionQueue.get? j =
        s.questionQueue.get? j) := by
  have hq2 : (setUserAnswerAt s.questionQueue s.currentQIndex v).get?
      s.currentQIndex = some { q with userAnswer := some v } :=
    setUserAnswerAt_get_self _ _ _ _ hq
  have hc : submissionCorrect (some v) false
      { q with userAnswer := some v } = true := by
    simp [submissionCorrect, hv]
  have happ : applySubmission (Submission.answer v now) s =
      { s with
          questionQueue := setUserAnswerAt s.questionQueue s.currentQIndex v
          feedback := some Feedback.correct
          sessionStats :=
            { s.sessionStats with
                correctCount := s.sessionStats.correctCount + 1 }
          pendingDelayed :=
            some (s.currentQIndex,
              (setUserAnswerAt s.questionQueue s.currentQIndex v).length) } := by
    show processAnswer (some v) false now
        { s with questionQueue :=
            setUserAnswerAt s.questionQueue s.currentQIndex v } = _
    exact processAnswer_correct (some v) false now _ _ hq2 hc
  rw [happ]
  refine ⟨rfl, rfl, setUserAnswerAt_length _ _ _, hq2, ?_⟩
  intro j hj
  exact setUserAnswerAt_get_other _ _ _ _ hj

/-- Witness for C7: submitting 6 for the question 2 x 3 = 6. -/
theorem correct_submission_frame_witness :
    (AppState.mk GameState.PLAYING
        [Question.mk "q-1-0" 2 3 OperationType.MULTIPLICATION 6 none false]
        0 "" none (SessionStats.mk 1 0 0 0 0 0) none).questionQueue.get?
      (AppState.mk GameState.PLAYING
        [Question.mk "q-1-0" 2 3 OperationType.MULTIPLICATION 6 none false]
        0 "" none (SessionStats.mk 1 0 0 0 0 0) none).currentQIndex =
      some (Question.mk "q-1-0" 2 3 OperationType.MULTIPLICATION 6 none false) ∧
    (6 : Int) =
      (Question.mk "q-1-0" 2 3 OperationType.MULTIPLICATION 6 none false).correctAnswer ∧
    (applySubmission (Submission.answer 6 9)
      (AppState.mk GameState.PLAYING
        [Question.mk "q-1-0" 2 3 OperationType.MULTIPLICATION 6 none false]
        0 "" none (SessionStats.mk 1 0 0 0 0 0) none)).sessionStats.correctCount =
      0 + 1 :=
  ⟨rfl, rfl,
    (correct_submission_frame
      (AppState.mk GameState.PLAYING
        [Question.mk "q-1-0" 2 3 OperationType.MULTIPLICATION 6 none false]
        0 "" none (SessionStats.mk 1 0 0 0 0 0) none)
      (Question.mk "q-1-0" 2 3 OperationType.MULTIPLICATION 6 none false)
      6 9 rfl rfl).1⟩

/-- C10: when the current question times out while its `userAnswer` was
never stored (auto-submit never fired because fewer digits were typed than
the answer has), scoring marks it wrong and appends a retry, but the queue
entry itself is unchanged, its `userAnswer` stays unset, and the
review-set derivation therefore excludes that entry: every member of the
wrong list has a set `userAnswer`, so the timed-out entry is not among
them. -/
theorem timeout_without_answer_excluded_from_review (s : AppState)
    (q : Question) (now : Nat)
    (hq : s.questionQueue.get? s.currentQIndex = some q)
    (hu : q.userAnswer = none) :
    (processAnswer none true now s).questionQueue.get? s.currentQIndex =
        some q ∧
    (processAnswer none true now s).sessionStats.wrongCount =
        s.sessionStats.wrongCount + 1 ∧
    (processAnswer none true now s).questionQueue =
        s.questionQueue ++ [retryClone q now] ∧
    q ∉ resultsWrongQuestions (processAnswer none true now s).questionQueue ∧
    (∀ r ∈ resultsWrongQuestions (processAnswer none true now s).questionQueue,
      r.userAnswer ≠ none) := by
  have hw : submissionCorrect none true q = false := by
    simp [submissionCorrect]
  have hmem : ∀ r ∈ resultsWrongQuestions
      (processAnswer none true now s).questionQueue, r.userAnswer ≠ none :=
    fun r hr => (resultsWrongQuestions_userAnswer_set _ r hr).1
  rw [processAnswer_wrong none true now s q hq hw] at hmem ⊢
  have hidx : s.currentQIndex < s.questionQueue.length := by
    rcases List.get?_eq_some.mp hq with ⟨h, _⟩
    exact h
  refine ⟨?_, rfl, rfl, ?_, hmem⟩
  · rw [List.get?_append hidx]
    exact hq
  · intro hin
    exact hmem q hin (by rw [hu])

/-- Witness for C10: the question 2 x 3 = 6 timing out with an empty
buffer. -/
theorem timeout_without_answer_excluded_from_review_witness :
    (AppState.mk GameState.PLAYING
        [Question.mk "q-1-0" 2 3 OperationType.MULTIPLICATION 6 none false]
        0 "" none (SessionStats.mk 1 0 0 0 0 0) none).questionQueue.get?
      (AppState.mk GameState.PLAYING
        [Question.mk "q-1-0" 2 3 OperationType.MULTIPLICATION 6 none false]
        0 "" none (SessionStats.mk 1 0 0 0 0 0) none).currentQIndex =
      some (Question.mk "q-1-0" 2 3 OperationType.MULTIPLICATION 6 none false) ∧
    (Question.mk "q-1-0" 2 3 OperationType.MULTIPLICATION 6 none false).userAnswer
      = none ∧
    (Question.mk "q-1-0" 2 3 OperationType.MULTIPLICATION 6 none false) ∉
      resultsWrongQuestions (processAnswer none true 9
        (AppState.mk GameState.PLAYING
          [Question.mk "q-1-0" 2 3 OperationType.MULTIPLICATION 6 none false]
          0 "" none (SessionStats.mk 1 0 0 0 0 0) none)).questionQueue :=
  ⟨rfl, rfl,
    (timeout_without_answer_excluded_from_review
      (AppState.mk GameState.PLAYING
        [Question.mk "q-1-0" 2 3 OperationType.MULTIPLICATION 6 none false]
        0 "" none (SessionStats.mk 1 0 0 0 0 0) none)
      (Question.mk "q-1-0" 2 3 OperationType.MULTIPLICATION 6 none false)
      9 rfl rfl).2.2.2.1⟩

/-- C1: evaluation of the failing session.  One initial question
(N = 1) is timed out (W = 1).  The wrong branch of `processAnswer` appends
the retry, but the delayed `nextQuestion` callback compares the captured
pre-append queue length (1) with the captured index (0), so it finishes
the session: the final queue length is N + W = 2 as claimed, but only one
submission was ever processed, `correctCount + wrongCount = 1`, not
N + W = 2, and the session ends with `currentQIndex` still 0 - the retry
at position 1 is never played, although the source appends it "so they
practice it again". -/
theorem session_counts_mismatch_on_final_wrong :
    (runSession [Submission.timeout 3]
      (startGame
        [Question.mk "q-1-0" 2 3 OperationType.MULTIPLICATION 6 none false]
        0)).gameState = GameState.RESULTS ∧
    (runSession [Submission.timeout 3]
      (startGame
        [Question.mk "q-1-0" 2 3 OperationType.MULTIPLICATION 6 none false]
        0)).sessionStats.wrongCount = 1 ∧
    (runSession [Submission.timeout 3]
      (startGame
        [Question.mk "q-1-0" 2 3 OperationType.MULTIPLICATION 6 none false]
        0)).questionQueue.length = 1 + 1 ∧
    (runSession [Submission.timeout 3]
      (startGame
        [Question.mk "q-1-0" 2 3 OperationType.MULTIPLICATION 6 none false]
        0)).sessionStats.correctCount +
      (runSession [Submission.timeout 3]
        (startGame
          [Question.mk "q-1-0" 2 3 OperationType.MULTIPLICATION 6 none false]
          0)).sessionStats.wrongCount = 1 ∧
    (runSession [Submission.timeout 3]
      (startGame
        [Question.mk "q-1-0" 2 3 OperationType.MULTIPLICATION 6 none false]
        0)).currentQIndex = 0 :=
  ⟨rfl, rfl, rfl, rfl, rfl⟩

/-- C4: evaluation of the stale feedback-delay callback.  The sole
question is answered correctly, which schedules the 600 ms
`setTimeout(() => nextQuestion(), 600)`; the player then exits to the
menu (the exit button only runs `setGameState(GameState.MENU)`, no
`clearTimeout` exists in the source, so the pending callback survives);
when the delay elapses the stale callback still runs `nextQuestion`,
whose captured completion test fires `finishGame`: it sets the end time
and moves the application from MENU to RESULTS.  So leaving the play
state does not cancel the pending feedback-delay callback, and the stale
callback does mutate non-playing state, contrary to the claim. -/
theorem stale_callback_completes_session_from_menu :
    (exitToMenu (applySubmission (Submission.answer 6 10)
      (startGame
        [Question.mk "q-1-0" 2 3 OperationType.MULTIPLICATION 6 none false]
        0))).gameState = GameState.MENU ∧
    (exitToMenu (applySubmission (Submission.answer 6 10)
      (startGame
        [Question.mk "q-1-0" 2 3 OperationType.MULTIPLICATION 6 none false]
        0))).pendingDelayed = some (0, 1) ∧
    (fireDelayed 11 (exitToMenu (applySubmission (Submission.answer 6 10)
      (startGame
        [Question.mk "q-1-0" 2 3 OperationType.MULTIPLICATION 6 none false]
        0)))).gameState = GameState.RESULTS ∧
    (fireDelayed 11 (exitToMenu (applySubmission (Submission.answer 6 10)
      (startGame
        [Question.mk "q-1-0" 2 3 OperationType.MULTIPLICATION 6 none false]
        0)))).sessionStats.endTime = 11 :=
  ⟨rfl, rfl, rfl, rfl⟩


/-- C3: evaluation of the failing queue.  The session completes; its final
queue holds, for the logical question A, the original (answer unset, it
timed out untyped) and three retries, two of which carry set wrong
answers.  Because the `forEach` loop probes the map with the stripped id
(`q.id.split('-retry')[0]`) but inserts under the full `q.id`, the first
failed retry of A is stored under the key `A-retry-1`, the probe for the
second failed retry (`has("A")`) still misses, and A is inserted twice:
the review set contains two entries whose stable identifier is `A`, not
exactly one. -/
theorem review_dedup_fails_after_unanswered_timeout :
    dedupFailFinal.gameState = GameState.RESULTS ∧
    dedupFailFinal.questionQueue.map Question.id =
      ["A", "B", "A-retry-1", "B-retry-2", "A-retry-1-retry-3",
       "B-retry-2-retry-4", "A-retry-1-retry-3-retry-5"] ∧
    dedupFailFinal.questionQueue.map Question.userAnswer =
      [none, none, some 5, some 5, some 4, some 8, some 6] ∧
    ((resultsWrongQuestions dedupFailFinal.questionQueue).filter
      (fun q => stripRetry q.id == "A")).length = 2 ∧
    ((startReviewQuestions dedupFailFinal.questionQueue).filter
      (fun q => stripRetry q.id == "review-A")).length = 2 :=
  ⟨rfl, rfl, rfl, rfl, rfl⟩


/-- `processAnswer` never changes `totalQuestions`. -/
theorem processAnswer_totalQuestions (userVal : Option Int)
    (isTimeout : Bool) (now : Nat) (s : AppState) :
    (processAnswer userVal isTimeout now s).sessionStats.totalQuestions =
      s.sessionStats.totalQuestions := by
  unfold processAnswer
  cases s.questionQueue.get? s.currentQIndex
  · rfl
  · dsimp only
    split <;> rfl

/-- A submission never changes `totalQuestions`. -/
theorem applySubmission_totalQuestions (sub : Submission) (s : AppState) :
    (applySubmission sub s).sessionStats.totalQuestions =
      s.sessionStats.totalQuestions := by
  cases sub <;> exact processAnswer_totalQuestions _ _ _ _

/-- The delayed callback never changes `totalQuestions`. -/
theorem fireDelayed_totalQuestions (now : Nat) (s : AppState) :
    (fireDelayed now s).sessionStats.totalQuestions =
      s.sessionStats.totalQuestions := by
  unfold fireDelayed
  cases s.pendingDelayed with
  | none => rfl
  | some p =>
    cases p with
    | mk ci cl =>
      unfold nextQuestion finishGame
      dsimp only
      split <;> rfl

/-- A session step never changes `totalQuestions`. -/
theorem stepSession_totalQuestions (s : AppState) (sub : Submission) :
    (stepSession s sub).sessionStats.totalQuestions =
      s.sessionStats.totalQuestions := by
  unfold stepSession
  split
  · rw [fireDelayed_totalQuestions, applySubmission_totalQuestions]
  · rfl

/-- A whole session never changes `totalQuestions`. -/
theorem runSession_totalQuestions (subs : List Submission) (s : AppState) :
    (runSession subs s).sessionStats.totalQuestions =
      s.sessionStats.totalQuestions := by
  induction subs generalizing s with
  | nil => rfl
  | cons sub rest ih =>
    show (runSession rest (stepSession s sub)).sessionStats.totalQuestions = _
    rw [ih, stepSession_totalQuestions]

/-- C8: `totalQuestions` is fixed at session start to the initial batch
size and is never incremented when retries are appended (the equality
holds after any sequence of submissions, wrong ones included), and the
average time reported at completion is `(endTime - startTime)` divided by
that original total (and by 1000 for seconds), not by the number of
answer events actually processed. -/
theorem avg_time_divides_by_original_total (qs : List Question) (t0 : Nat)
    (subs : List Submission) :
    (runSession subs (startGame qs t0)).sessionStats.totalQuestions =
      qs.length ∧
    resultsAvgTimeSec (runSession subs (startGame qs t0)).sessionStats =
      (((runSession subs (startGame qs t0)).sessionStats.endTime : ℚ) -
        ((runSession subs (startGame qs t0)).sessionStats.startTime : ℚ)) /
        ((qs.length : ℚ) * 1000) := by
  have htot : (runSession subs (startGame qs t0)).sessionStats.totalQuestions =
      qs.length := runSession_totalQuestions subs (startGame qs t0)
  refine ⟨htot, ?_⟩
  unfold resultsAvgTimeSec
  rw [htot, div_div]

/-- A keypad digit is one character. -/
theorem digitStr_length (d : Fin 10) : (digitStr d).length = 1 := by
  fin_cases d <;> rfl

/-- `handleInput` while feedback is displayed is a no-op. -/
theorem handleInput_feedback_some (d : Fin 10) (now : Nat) (s : AppState)
    (h : s.feedback.isSome = true) : handleInput d now s = s := by
  unfold handleInput
  rw [if_pos h]

/-- `handleInput` with no current question is a no-op. -/
theorem handleInput_no_current (d : Fin 10) (now : Nat) (s : AppState)
    (h1 : s.feedback.isSome = false)
    (h2 : s.questionQueue.get? s.currentQIndex = none) :
    handleInput d now s = s := by
  unfold handleInput
  simp only [h1, Bool.false_eq_true, if_false]
  rw [h2]

/-- `handleInput` with a full buffer is a no-op (over-typing guard). -/
theorem handleInput_full_buffer (d : Fin 10) (now : Nat) (s : AppState)
    (q : Question) (h1 : s.feedback.isSome = false)
    (hq : s.questionQueue.get? s.currentQIndex = some q)
    (h3 : s.userInput.length ≥ (toString q.correctAnswer).length) :
    handleInput d now s = s := by
  unfold handleInput
  simp only [h1, Bool.false_eq_true, if_false]
  rw [hq]
  dsimp only
  rw [if_pos h3]

/-- `handleInput` short of the answer length just appends the digit. -/
theorem handleInput_append (d : Fin 10) (now : Nat) (s : AppState)
    (q : Question) (h1 : s.feedback.isSome = false)
    (hq : s.questionQueue.get? s.currentQIndex = some q)
    (h3 : ¬ s.userInput.length ≥ (toString q.correctAnswer).length)
    (h4 : (s.userInput ++ digitStr d).length ≠
      (toString q.correctAnswer).length) :
    handleInput d now s = { s with userInput := s.userInput ++ digitStr d } := by
  unfold handleInput
  simp only [h1, Bool.false_eq_true, if_false]
  rw [hq]
  dsimp only
  rw [if_neg h3, if_neg h4]

/-- `handleInput` reaching exactly the answer length auto-submits: the
extended buffer is parsed, stored as the current question answer, and
evaluated through `processAnswer`. -/
theorem handleInput_auto_submit (d : Fin 10) (now : Nat) (s : AppState)
    (q : Question) (h1 : s.feedback.isSome = false)
    (hq : s.questionQueue.get? s.currentQIndex = some q)
    (h3 : ¬ s.userInput.length ≥ (toString q.correctAnswer).length)
    (h4 : (s.userInput ++ digitStr d).length =
      (toString q.correctAnswer).length) :
    handleInput d now s =
      processAnswer (some (parseIntDigits (s.userInput ++ digitStr d)))
        false now
        { s with
            userInput := s.userInput ++ digitStr d
            questionQueue := setUserAnswerAt s.questionQueue s.currentQIndex
              (parseIntDigits (s.userInput ++ digitStr d)) } := by
  unfold handleInput
  simp only [h1, Bool.false_eq_true, if_false]
  rw [hq]
  dsimp only
  rw [if_neg h3, if_pos h4]

/-- `processAnswer` never changes the game state. -/
theorem processAnswer_gameState (userVal : Option Int) (isTimeout : Bool)
    (now : Nat) (s : AppState) :
    (processAnswer userVal isTimeout now s).gameState = s.gameState := by
  unfold processAnswer
  cases s.questionQueue.get? s.currentQIndex
  · rfl
  · dsimp only
    split <;> rfl

/-- `processAnswer` never changes the current index. -/
theorem processAnswer_currentQIndex (userVal : Option Int)
    (isTimeout : Bool) (now : Nat) (s : AppState) :
    (processAnswer userVal isTimeout now s).currentQIndex =
      s.currentQIndex := by
  unfold processAnswer
  cases s.questionQueue.get? s.currentQIndex
  · rfl
  · dsimp only
    split <;> rfl

/-- `processAnswer` never reads or writes the input buffer. -/
theorem processAnswer_userInput (userVal : Option Int) (isTimeout : Bool)
    (now : Nat) (s : AppState) :
    (processAnswer userVal isTimeout now s).userInput = s.userInput := by
  unfold processAnswer
  cases s.questionQueue.get? s.currentQIndex
  · rfl
  · dsimp only
    split <;> rfl

/-- `processAnswer` keeps the current queue entry (the retry, if any, is
appended behind it). -/
theorem processAnswer_get_current (userVal : Option Int) (isTimeout : Bool)
    (now : Nat) (s : AppState) (q : Question)
    (hq : s.questionQueue.get? s.currentQIndex = some q) :
    (processAnswer userVal isTimeout now s).questionQueue.get?
      s.currentQIndex = some q := by
  have hidx : s.currentQIndex < s.questionQueue.length := by
    rcases List.get?_eq_some.mp hq with ⟨h, _⟩
    exact h
  cases hc : submissionCorrect userVal isTimeout q
  · rw [processAnswer_wrong userVal isTimeout now s q hq hc]
    rw [List.get?_append hidx]
    exact hq
  · rw [processAnswer_correct userVal isTimeout now s q hq hc]
    exact hq


/-- `startGame` establishes the invariant (empty buffer). -/
theorem inputInv_startGame (qs : List Question) (now : Nat) :
    InputInv (startGame qs now) := by
  intro _ q _
  exact Nat.zero_le _

/-- A keypad press preserves the invariant. -/
theorem inputInv_handleInput (d : Fin 10) (now : Nat) (s : AppState)
    (ih : InputInv s) : InputInv (handleInput d now s) := by
  cases h1 : s.feedback.isSome
  case true => rw [handleInput_feedback_some d now s h1]; exact ih
  cases hq : s.questionQueue.get? s.currentQIndex
  case false.none => rw [handleInput_no_current d now s h1 hq]; exact ih
  case false.some q =>
  by_cases h3 : s.userInput.length ≥ (toString q.correctAnswer).length
  · rw [handleInput_full_buffer d now s q h1 hq h3]; exact ih
  · have hlen : (s.userInput ++ digitStr d).length =
        s.userInput.length + 1 := by
      rw [String.length_append, digitStr_length]
    by_cases h4 : (s.userInput ++ digitStr d).length =
        (toString q.correctAnswer).length
    · -- auto-submit: the buffer is exactly as long as the answer
      rw [handleInput_auto_submit d now s q h1 hq h3 h4]
      intro hps q2 hq2
      set v := parseIntDigits (s.userInput ++ digitStr d) with hv
      set s2 : AppState :=
        { s with
            userInput := s.userInput ++ digitStr d
            questionQueue :=
              setUserAnswerAt s.questionQueue s.currentQIndex v } with hs2
      have hq2' : s2.questionQueue.get? s2.currentQIndex =
          some { q with userAnswer := some v } :=
        setUserAnswerAt_get_self _ _ _ _ hq
      have hq3 : (processAnswer (some v) false now s2).questionQueue.get?
          s2.currentQIndex = some { q with userAnswer := some v } :=
        processAnswer_get_current _ _ _ _ _ hq2'
      rw [processAnswer_currentQIndex] at hq2
      rw [hq2] at hq3
      have hq2eq : q2 = { q with userAnswer := some v } :=
        Option.some.inj hq3
      rw [processAnswer_userInput]
      show (s.userInput ++ digitStr d).length ≤
        (toString q2.correctAnswer).length
      rw [hq2eq]
      exact Nat.le_of_eq h4
    · -- plain append: still below the answer length
      rw [handleInput_append d now s q h1 hq h3 h4]
      intro hps q2 hq2
      have hq2' : s.questionQueue.get? s.currentQIndex = some q2 := hq2
      rw [hq] at hq2'
      have hq2eq : q2 = q := (Option.some.inj hq2').symm
      show (s.userInput ++ digitStr d).length ≤
        (toString q2.correctAnswer).length
      rw [hq2eq, hlen]
      omega

/-- A delete press preserves the invariant (the buffer only shrinks). -/
theorem inputInv_handleDelete (s : AppState) (ih : InputInv s) :
    InputInv (handleDelete s) := by
  unfold handleDelete
  cases h1 : s.feedback.isSome
  · rw [if_neg (by simp [h1])]
    intro hps q hq
    have hq' : s.questionQueue.get? s.currentQIndex = some q := hq
    have hle := ih hps q hq'
    show (String.mk s.userInput.data.dropLast).length ≤
      (toString q.correctAnswer).length
    have hdrop : (String.mk s.userInput.data.dropLast).length =
        s.userInput.data.length - 1 := by
      show s.userInput.data.dropLast.length = _
      exact List.length_dropLast _
    rw [hdrop]
    have : s.userInput.length = s.userInput.data.length := rfl
    omega
  · rw [if_pos (by simp [h1])]
    exact ih

/-- A countdown expiry preserves the invariant (`processAnswer` leaves the
buffer, the index and the current entry alone). -/
theorem inputInv_timerFired (now : Nat) (s : AppState) (ih : InputInv s) :
    InputInv (timerFired now s) := by
  unfold timerFired
  split
  · intro hps q hq
    cases hq0 : s.questionQueue.get? s.currentQIndex with
    | none =>
      rw [processAnswer_no_current none true now s hq0] at hps hq ⊢
      exact ih hps q hq
    | some q0 =>
      have hq3 : (processAnswer none true now s).questionQueue.get?
          s.currentQIndex = some q0 :=
        processAnswer_get_current _ _ _ _ _ hq0
      rw [processAnswer_currentQIndex] at hq
      rw [hq] at hq3
      have hqe : q = q0 := Option.some.inj hq3
      rw [processAnswer_userInput]
      rw [processAnswer_gameState] at hps
      have := ih hps q0 hq0
      rw [hqe]
      exact this
  · exact ih

/-- The delayed `nextQuestion` callback preserves the invariant: it always
clears the buffer. -/
theorem inputInv_fireDelayed (now : Nat) (s : AppState) (ih : InputInv s) :
    InputInv (fireDelayed now s) := by
  unfold fireDelayed
  cases hp : s.pendingDelayed with
  | none => exact ih
  | some p =>
    cases p with
    | mk ci cl =>
      unfold nextQuestion finishGame
      dsimp only
      split
      · intro _ q _
        exact Nat.zero_le _
      · intro _ q _
        exact Nat.zero_le _

/-- Leaving to the menu preserves the invariant (the state is no longer a
play state). -/
theorem inputInv_exitToMenu (s : AppState) :
    InputInv (exitToMenu s) := by
  intro hps
  exact nomatch hps

/-- Every reachable state satisfies the input-buffer invariant. -/
theorem reachable_inputInv (s : AppState) (h : Reachable s) : InputInv s := by
  induction h with
  | start qs now => exact inputInv_startGame qs now
  | press d now _ ih => exact inputInv_handleInput d now _ ih
  | delete _ ih => exact inputInv_handleDelete _ ih
  | timer now _ ih => exact inputInv_timerFired now _ ih
  | delayed now _ ih => exact inputInv_fireDelayed now _ ih
  | exit _ _ => exact inputInv_exitToMenu _

/-- C9: in every reachable play state the pending buffer never holds more
digits than the current question correct answer has; and as soon as one
more digit makes the buffer exactly that long, `handleInput` parses the
buffer and triggers evaluation automatically (storing the parsed value as
the user answer and calling `processAnswer`), with no separate submit
action. -/
theorem input_buffer_capped_and_auto_submits (s : AppState)
    (hr : Reachable s) (d : Fin 10) (now : Nat) (q : Question)
    (hq : s.questionQueue.get? s.currentQIndex = some q) :
    (s.gameState = GameState.PLAYING →
      s.userInput.length ≤ (toString q.correctAnswer).length) ∧
    (s.feedback = none →
      (s.userInput ++ digitStr d).length =
        (toString q.correctAnswer).length →
      handleInput d now s =
        processAnswer (some (parseIntDigits (s.userInput ++ digitStr d)))
          false now
          { s with
              userInput := s.userInput ++ digitStr d
              questionQueue := setUserAnswerAt s.questionQueue
                s.currentQIndex
                (parseIntDigits (s.userInput ++ digitStr d)) }) := by
  constructor
  · intro hps
    exact reachable_inputInv s hr hps q hq
  · intro hfb h4
    have h1 : s.feedback.isSome = false := by rw [hfb]; rfl
    have h3 : ¬ s.userInput.length ≥ (toString q.correctAnswer).length := by
      have hlen : (s.userInput ++ digitStr d).length =
          s.userInput.length + 1 := by
        rw [String.length_append, digitStr_length]
      omega
    exact handleInput_auto_submit d now s q h1 hq h3 h4

/-- Witness for C9: the fresh session on the single question 2 x 3 = 6,
whose empty buffer is within the one-digit bound, and pressing 6 there
auto-submits. -/
theorem input_buffer_capped_and_auto_submits_witness :
    (startGame
        [Question.mk "W" 2 3 OperationType.MULTIPLICATION 6 none false]
        5).userInput.length ≤
      (toString (Question.mk "W" 2 3 OperationType.MULTIPLICATION 6 none
        false).correctAnswer).length ∧
    handleInput 6 7
        (startGame
          [Question.mk "W" 2 3 OperationType.MULTIPLICATION 6 none false]
          5) =
      processAnswer
        (some (parseIntDigits
          ((startGame
            [Question.mk "W" 2 3 OperationType.MULTIPLICATION 6 none false]
            5).userInput ++ digitStr 6)))
        false 7
        { (startGame
            [Question.mk "W" 2 3 OperationType.MULTIPLICATION 6 none false]
            5) with
            userInput :=
              (startGame
                [Question.mk "W" 2 3 OperationType.MULTIPLICATION 6 none
                  false] 5).userInput ++ digitStr 6
            questionQueue :=
              setUserAnswerAt
                (startGame
                  [Question.mk "W" 2 3 OperationType.MULTIPLICATION 6 none
                    false] 5).questionQueue
                (startGame
                  [Question.mk "W" 2 3 OperationType.MULTIPLICATION 6 none
                    false] 5).currentQIndex
                (parseIntDigits
                  ((startGame
                    [Question.mk "W" 2 3 OperationType.MULTIPLICATION 6
                      none false] 5).userInput ++ digitStr 6)) } :=
  ⟨(input_buffer_capped_and_auto_submits
      (startGame
        [Question.mk "W" 2 3 OperationType.MULTIPLICATION 6 none false] 5)
      (Reachable.start _ _) 6 7
      (Question.mk "W" 2 3 OperationType.MULTIPLICATION 6 none false)
      rfl).1 rfl,
   (input_buffer_capped_and_auto_submits
      (startGame
        [Question.mk "W" 2 3 OperationType.MULTIPLICATION 6 none false] 5)
      (Reachable.start _ _) 6 7
      (Question.mk "W" 2 3 OperationType.MULTIPLICATION 6 none false)
      rfl).2 rfl (by decide)⟩

/-- Queue growth tracks the wrong count: one `processAnswer` keeps
`length - wrongCount` constant. -/
theorem processAnswer_length_balance (userVal : Option Int)
    (isTimeout : Bool) (now : Nat) (s : AppState) :
    (processAnswer userVal isTimeout now s).questionQueue.length +
        s.sessionStats.wrongCount =
      s.questionQueue.length +
        (processAnswer userVal isTimeout now s).sessionStats.wrongCount := by
  unfold processAnswer
  cases s.questionQueue.get? s.currentQIndex
  · rfl
  · dsimp only
    split
    · rfl
    · simp only [List.length_append, List.length_singleton]
      omega

/-- The same balance for a whole submission. -/
theorem applySubmission_length_balance (sub : Submission) (s : AppState) :
    (applySubmission sub s).questionQueue.length +
        s.sessionStats.wrongCount =
      s.questionQueue.length +
        (applySubmission sub s).sessionStats.wrongCount := by
  cases sub with
  | answer v now =>
    have h := processAnswer_length_balance (some v) false now
      { s with questionQueue :=
          setUserAnswerAt s.questionQueue s.currentQIndex v }
    simpa [setUserAnswerAt_length] using h
  | timeout now => exact processAnswer_length_balance none true now s

/-- The delayed callback changes neither the queue nor the wrong count. -/
theorem fireDelayed_queue_and_wrong (now : Nat) (s : AppState) :
    (fireDelayed now s).questionQueue = s.questionQueue ∧
    (fireDelayed now s).sessionStats.wrongCount =
      s.sessionStats.wrongCount := by
  unfold fireDelayed
  cases s.pendingDelayed with
  | none => exact ⟨rfl, rfl⟩
  | some p =>
    cases p with
    | mk ci cl =>
      unfold nextQuestion finishGame
      dsimp only
      split
      · exact ⟨rfl, rfl⟩
      · exact ⟨rfl, rfl⟩

/-- A session keeps `length - wrongCount` constant. -/
theorem runSession_length_balance (subs : List Submission) (s : AppState) :
    (runSession subs s).questionQueue.length + s.sessionStats.wrongCount =
      s.questionQueue.length +
        (runSession subs s).sessionStats.wrongCount := by
  induction subs generalizing s with
  | nil => rfl
  | cons sub rest ih =>
    have hrun : runSession (sub :: rest) s =
        runSession rest (stepSession s sub) := rfl
    rw [hrun]
    have hstep : (stepSession s sub).questionQueue.length +
        s.sessionStats.wrongCount =
        s.questionQueue.length +
          (stepSession s sub).sessionStats.wrongCount := by
      unfold stepSession
      split
      · have h1 := applySubmission_length_balance sub s
        have h2 := fireDelayed_queue_and_wrong (submissionNow sub)
          (applySubmission sub s)
        rw [h2.1, h2.2]
        exact h1
      · rfl
    have h3 := ih (stepSession s sub)
    omega

/-- After any sequence of submissions from a session start over N
questions, the queue length is exactly N plus the recorded wrong count:
every wrong submission appends exactly one retry and nothing else ever
grows or shrinks the queue. -/
theorem runSession_queue_length (qs : List Question) (t0 : Nat)
    (subs : List Submission) :
    (runSession subs (startGame qs t0)).questionQueue.length =
      qs.length +
        (runSession subs (startGame qs t0)).sessionStats.wrongCount := by
  have h := runSession_length_balance subs (startGame qs t0)
  simpa [startGame] using h
